import Mathlib

/-!
Verification development for the KUB trust core: credential issuance and
refresh-token rotation (`internal/handlers/auth_handler.go`,
`internal/repositories/client_repository.go`), the two one-time-code
policies (`internal/services/sms_service.go`,
`internal/repositories/user_verification_repository.go`,
`internal/repositories/sms_confirmation_repository.go`), and the document
trust state machine (`internal/services/document_service.go`).
Nat is modelled in abstract units (minutes); Go's `time.Now().After(t)`
becomes `t < now` on `Nat`.
-/

namespace KUB

/-- Security constants from `sms_service.go`. -/
def maxResendsPerWindow : Nat := 3

/-- Trailing resend-throttle window (`10 * time.Minute`), in minutes. -/
def resendWindow : Nat := 10

/-- Confirm-attempt cap from `sms_service.go`. -/
def maxConfirmAttempts : Nat := 5

/-- Default strict-policy code TTL (`5 * time.Minute`), in minutes. -/
def defaultVerificationTTL : Nat := 5

/-- Refresh-token lifetime (`30 * 24 * time.Hour`), in minutes. -/
def refreshTokenTTL : Nat := 30 * 24 * 60

/-- Model of Go's `strings.TrimSpace`: drop leading and trailing
whitespace. -/
def trimSpace (s : String) : String :=
  ⟨((s.data.dropWhile Char.isWhitespace).reverse.dropWhile Char.isWhitespace).reverse⟩

/-- Model of the external bcrypt primitive `bcrypt.GenerateFromPassword`:
an injective one-way encoding; the concrete tag mirrors bcrypt's `$2`
prefix which `Login` probes. -/
def bcryptHash (pw : String) : String := "$2a$" ++ pw

/-- Model of `bcrypt.CompareHashAndPassword`: true exactly when the hash
was produced from this password. -/
def bcryptMatch (hash pw : String) : Bool := hash == bcryptHash pw

/-- `internal/models/user.go`: the fields of `models.User` used by the
trust core (identity, auth state, refresh-token state). -/
structure User where
  id : Nat
  email : String
  password_hash : String
  role_id : Nat
  phone : String
  is_verified : Bool
  verified_at : Option Nat
  refresh_token : Option String
  refresh_expires_at : Option Nat
  refresh_revoked : Bool
  deriving DecidableEq, Repr

/-- `client_repository.go` `GetUserByEmail`: `SELECT ... WHERE email=$1`. -/
def getUserByEmail (users : List User) (email : String) : Option User :=
  users.find? (fun u => u.email == email)

/-- `client_repository.go` `UpdateRefresh`: set the refresh token, its
expiry, and clear the revoked flag on the user row. -/
def updateRefresh (users : List User) (userID : Nat) (token : String)
    (expiresAt : Nat) : List User :=
  users.map (fun u =>
    if u.id == userID then
      { u with refresh_token := some token, refresh_expires_at := some expiresAt,
               refresh_revoked := false }
    else u)

/-- `client_repository.go` `RotateRefresh`: `UPDATE users SET
refresh_token=$1, refresh_expires_at=$2, refresh_revoked=FALSE WHERE
refresh_token=$3 RETURNING ...`.  The `WHERE` clause is keyed on the old
token value alone.  Returns the updated store and the returned row
(`none` models `sql.ErrNoRows` when no row matched). -/
def rotateRefresh (users : List User) (oldToken newToken : String)
    (newExpiresAt : Nat) : List User × Option User :=
  let swap : User → User := fun u =>
    { u with refresh_token := some newToken, refresh_expires_at := some newExpiresAt,
             refresh_revoked := false }
  (users.map (fun u => if u.refresh_token == some oldToken then swap u else u),
   (users.find? (fun u => u.refresh_token == some oldToken)).map swap)

/-- `client_repository.go` `ClearRefresh` (logout / revoke). -/
def clearRefresh (users : List User) (userID : Nat) : List User :=
  users.map (fun u =>
    if u.id == userID then
      { u with refresh_token := none, refresh_expires_at := none,
               refresh_revoked := true }
    else u)

/-- `client_repository.go` `GetByRefreshToken`: `SELECT ... WHERE
refresh_token = $1`. -/
def getByRefreshToken (users : List User) (token : String) : Option User :=
  users.find? (fun u => u.refresh_token == some token)

/-- `client_repository.go` `VerifyUser`: `UPDATE users SET
is_verified=TRUE, verified_at=NOW() WHERE id=$1`. -/
def verifyUser (users : List User) (userID : Nat) (now : Nat) : List User :=
  users.map (fun u =>
    if u.id == userID then
      { u with is_verified := true, verified_at := some now }
    else u)

/-- Caller-visible outcome of `AuthHandler.Login`. -/
inductive LoginOutcome where
  | invalidCredentials
  | notVerified
  | success (userID roleID : Nat) (refreshToken : String)
  deriving DecidableEq, Repr

/-- `auth_handler.go` `Login` (lines 28-116): look the user up by trimmed
email; reject unknown users with `InvalidCredentials`; reject unverified
users with `NotVerified` before the password is compared; reject an empty
stored hash and a bcrypt mismatch with `InvalidCredentials`; on success
mint tokens and persist the fresh opaque refresh token via
`UpdateRefresh`.  `freshRT` stands for `utils.NewRefreshToken`'s random
output. -/
def login (users : List User) (now : Nat) (freshRT : String)
    (email password : String) : List User × LoginOutcome :=
  match getUserByEmail users (trimSpace email) with
  | none => (users, .invalidCredentials)
  | some u =>
    if !u.is_verified then (users, .notVerified)
    else
      let ph := trimSpace u.password_hash
      if ph == "" then (users, .invalidCredentials)
      else if !(bcryptMatch ph (trimSpace password)) then (users, .invalidCredentials)
      else (updateRefresh users u.id freshRT (now + refreshTokenTTL),
            .success u.id u.role_id freshRT)

/-- Caller-visible outcome of `AuthHandler.RefreshToken`. -/
inductive RefreshOutcome where
  | tokenInvalid
  | tokenExpired
  | success (userID roleID : Nat) (refreshToken : String)
  deriving DecidableEq, Repr

/-- `auth_handler.go` `RefreshToken` (lines 118-167), run sequentially:
read the user by the old token and check presence/expiry/revocation, then
rotate via the conditional update `RotateRefresh`. -/
def refreshTokenHandler (users : List User) (now : Nat) (freshRT : String)
    (oldToken : String) : List User × RefreshOutcome :=
  match getByRefreshToken users (trimSpace oldToken) with
  | none => (users, .tokenInvalid)
  | some u =>
    if u.refresh_token.isNone || u.refresh_expires_at.isNone || u.refresh_revoked then
      (users, .tokenInvalid)
    else
      match u.refresh_expires_at with
      | none => (users, .tokenInvalid)
      | some e =>
        if e < now then (users, .tokenExpired)
        else
          match rotateRefresh users (trimSpace oldToken) freshRT (now + refreshTokenTTL) with
          | (users', some rotated) => (users', .success rotated.id rotated.role_id freshRT)
          | (users', none) => (users', .tokenInvalid)

example :
    (login [{ id := 1, email := "a@b", password_hash := bcryptHash "pw",
              role_id := 10, phone := "7", is_verified := true, verified_at := none,
              refresh_token := none, refresh_expires_at := none,
              refresh_revoked := false }] 0 "rt0" "a@b" "pw").2
      = .success 1 10 "rt0" := by decide

example :
    (login [{ id := 1, email := "a@b", password_hash := bcryptHash "pw",
              role_id := 10, phone := "7", is_verified := false, verified_at := none,
              refresh_token := none, refresh_expires_at := none,
              refresh_revoked := false }] 0 "rt0" "a@b" "wrong").2
      = .notVerified := by decide

/-! ### Concurrent refresh rotation

`RefreshToken` performs two store operations: the read
(`GetByRefreshToken` plus the nil/revoked/expired checks) and the
conditional update (`RotateRefresh`).  A request in flight is at one of
three program points; interleavings of two requests are schedules of
atomic store operations. -/

/-- Program point of one in-flight `RefreshToken` request. -/
inductive RtPhase where
  | ready
  | checked
  | done (o : RefreshOutcome)
  deriving DecidableEq, Repr

/-- The read half of `RefreshToken`: `some o` means the request fails
fast with outcome `o`; `none` means it proceeds to the rotation.  The
token is already trimmed here. -/
def rtReadStep (users : List User) (now : Nat) (oldToken : String) :
    Option RefreshOutcome :=
  match getByRefreshToken users oldToken with
  | none => some .tokenInvalid
  | some u =>
    if u.refresh_token.isNone || u.refresh_expires_at.isNone || u.refresh_revoked then
      some .tokenInvalid
    else
      match u.refresh_expires_at with
      | none => some .tokenInvalid
      | some e => if e < now then some .tokenExpired else none

/-- The update half of `RefreshToken`: the conditional update, zero rows
affected mapping to `TokenInvalid`. -/
def rtCasStep (users : List User) (now : Nat) (freshRT oldToken : String) :
    List User × RefreshOutcome :=
  match rotateRefresh users oldToken freshRT (now + refreshTokenTTL) with
  | (users', some rotated) => (users', .success rotated.id rotated.role_id freshRT)
  | (users', none) => (users', .tokenInvalid)

/-- One atomic store operation of an in-flight `RefreshToken` request;
finished requests stutter. -/
def rtThreadStep (now : Nat) (freshRT oldToken : String) :
    RtPhase → List User → RtPhase × List User
  | .ready, users =>
    match rtReadStep users now oldToken with
    | some o => (.done o, users)
    | none => (.checked, users)
  | .checked, users =>
    let r := rtCasStep users now freshRT oldToken
    (.done r.2, r.1)
  | .done o, users => (.done o, users)

/-- Two concurrent `RefreshToken` requests over the shared user store. -/
structure RtSys where
  store : List User
  ph1 : RtPhase
  ph2 : RtPhase
  deriving DecidableEq, Repr

/-- Scheduler step: `true` advances request 1, `false` request 2. -/
def rtSysStep (now : Nat) (oldToken new1 new2 : String) (turn : Bool)
    (s : RtSys) : RtSys :=
  if turn then
    let r := rtThreadStep now new1 oldToken s.ph1 s.store
    { s with ph1 := r.1, store := r.2 }
  else
    let r := rtThreadStep now new2 oldToken s.ph2 s.store
    { s with ph2 := r.1, store := r.2 }

/-- Run a schedule of interleaved atomic operations. -/
def rtRun (now : Nat) (oldToken new1 new2 : String) (sched : List Bool)
    (s : RtSys) : RtSys :=
  sched.foldl (fun s t => rtSysStep now oldToken new1 new2 t s) s

/-- No user row still holds the given token value. -/
def noOld (oldToken : String) (users : List User) : Prop :=
  ∀ u ∈ users, u.refresh_token ≠ some oldToken

/-- States reachable from `s` by trust-core operations whose freshly
minted tokens are all distinct from `oldToken` (`utils.NewRefreshToken`
draws 256 fresh random bits, so a repeat of a given value is excluded). -/
inductive FreshReachable (oldToken : String) : List User → List User → Prop where
  | refl (s) : FreshReachable oldToken s s
  | loginStep (s t now rt email pw) : FreshReachable oldToken s t → rt ≠ oldToken →
      FreshReachable oldToken s (login t now rt email pw).1
  | refreshStep (s t now rt tok) : FreshReachable oldToken s t → rt ≠ oldToken →
      FreshReachable oldToken s (refreshTokenHandler t now rt tok).1
  | rotateStep (s t tok newT e) : FreshReachable oldToken s t → newT ≠ oldToken →
      FreshReachable oldToken s (rotateRefresh t tok newT e).1
  | updateStep (s t uid tk e) : FreshReachable oldToken s t → tk ≠ oldToken →
      FreshReachable oldToken s (updateRefresh t uid tk e)
  | clearStep (s t uid) : FreshReachable oldToken s t →
      FreshReachable oldToken s (clearRefresh t uid)
  | verifyStep (s t uid now) : FreshReachable oldToken s t →
      FreshReachable oldToken s (verifyUser t uid now)

lemma noOld_rotateRefresh_self (users : List User) (newT : String) (e : Nat)
    (oldToken : String) (h : newT ≠ oldToken) :
    noOld oldToken (rotateRefresh users oldToken newT e).1 := by
  intro u hu
  simp only [rotateRefresh, List.mem_map] at hu
  obtain ⟨v, hv, rfl⟩ := hu
  split
  · simp [h]
  · next hne => simpa using hne

lemma noOld_rotateRefresh (users : List User) (tok newT : String) (e : Nat)
    (oldToken : String) (hu : noOld oldToken users) (h : newT ≠ oldToken) :
    noOld oldToken (rotateRefresh users tok newT e).1 := by
  intro u hmem
  simp only [rotateRefresh, List.mem_map] at hmem
  obtain ⟨v, hv, rfl⟩ := hmem
  split
  · simp [h]
  · exact hu v hv

lemma noOld_updateRefresh (users : List User) (uid : Nat) (tk : String) (e : Nat)
    (oldToken : String) (hu : noOld oldToken users) (h : tk ≠ oldToken) :
    noOld oldToken (updateRefresh users uid tk e) := by
  intro u hmem
  simp only [updateRefresh, List.mem_map] at hmem
  obtain ⟨v, hv, rfl⟩ := hmem
  split
  · simp [h]
  · exact hu v hv

lemma noOld_clearRefresh (users : List User) (uid : Nat)
    (oldToken : String) (hu : noOld oldToken users) :
    noOld oldToken (clearRefresh users uid) := by
  intro u hmem
  simp only [clearRefresh, List.mem_map] at hmem
  obtain ⟨v, hv, rfl⟩ := hmem
  split
  · simp
  · exact hu v hv

lemma noOld_verifyUser (users : List User) (uid : Nat) (now : Nat)
    (oldToken : String) (hu : noOld oldToken users) :
    noOld oldToken (verifyUser users uid now) := by
  intro u hmem
  simp only [verifyUser, List.mem_map] at hmem
  obtain ⟨v, hv, rfl⟩ := hmem
  split
  · exact hu v hv
  · exact hu v hv

lemma login_store (users : List User) (now : Nat) (rt email pw : String) :
    (login users now rt email pw).1 = users ∨
    ∃ uid, (login users now rt email pw).1
             = updateRefresh users uid rt (now + refreshTokenTTL) := by
  unfold login
  rcases hg : getUserByEmail users (trimSpace email) with _ | u
  · left; rfl
  · simp only []
    split
    · left; rfl
    · split
      · left; rfl
      · split
        · left; rfl
        · right; exact ⟨u.id, rfl⟩

lemma refreshTokenHandler_store (users : List User) (now : Nat) (rt tok : String) :
    (refreshTokenHandler users now rt tok).1 = users ∨
    (refreshTokenHandler users now rt tok).1
      = (rotateRefresh users (trimSpace tok) rt (now + refreshTokenTTL)).1 := by
  unfold refreshTokenHandler
  rcases hg : getByRefreshToken users (trimSpace tok) with _ | u
  · left; rfl
  · simp only []
    split
    · left; rfl
    · rcases he : u.refresh_expires_at with _ | e
      · left; rfl
      · simp only []
        split
        · left; rfl
        · rcases hr : rotateRefresh users (trimSpace tok) rt (now + refreshTokenTTL)
            with ⟨users', ret⟩
          rcases ret with _ | v <;> simp [hr]

lemma noOld_login (users : List User) (now : Nat) (rt email pw : String)
    (oldToken : String) (hu : noOld oldToken users) (h : rt ≠ oldToken) :
    noOld oldToken (login users now rt email pw).1 := by
  rcases login_store users now rt email pw with hs | ⟨uid, hs⟩
  · rw [hs]; exact hu
  · rw [hs]; exact noOld_updateRefresh _ _ _ _ _ hu h

lemma noOld_refreshTokenHandler (users : List User) (now : Nat) (rt tok : String)
    (oldToken : String) (hu : noOld oldToken users) (h : rt ≠ oldToken) :
    noOld oldToken (refreshTokenHandler users now rt tok).1 := by
  rcases refreshTokenHandler_store users now rt tok with hs | hs
  · rw [hs]; exact hu
  · rw [hs]; exact noOld_rotateRefresh _ _ _ _ _ hu h

lemma noOld_freshReachable (oldToken : String) (s t : List User)
    (hu : noOld oldToken s) (hr : FreshReachable oldToken s t) :
    noOld oldToken t := by
  induction hr with
  | refl => exact hu
  | loginStep _ _ _ _ _ _ hrt ih => exact noOld_login _ _ _ _ _ _ ih hrt
  | refreshStep _ _ _ _ _ hrt ih => exact noOld_refreshTokenHandler _ _ _ _ _ ih hrt
  | rotateStep _ _ _ _ _ hnew ih => exact noOld_rotateRefresh _ _ _ _ _ ih hnew
  | updateStep _ _ _ _ _ htk ih => exact noOld_updateRefresh _ _ _ _ _ ih htk
  | clearStep _ _ _ ih => exact noOld_clearRefresh _ _ _ ih
  | verifyStep _ _ _ _ ih => exact noOld_verifyUser _ _ _ _ ih

lemma getByRefreshToken_of_noOld (users : List User) (tok : String)
    (hu : noOld tok users) : getByRefreshToken users tok = none := by
  simp only [getByRefreshToken, List.find?_eq_none]
  intro u hmem
  simpa using hu u hmem

lemma refreshTokenHandler_of_noOld (users : List User) (now : Nat)
    (rt tok : String) (hu : noOld (trimSpace tok) users) :
    refreshTokenHandler users now rt tok = (users, .tokenInvalid) := by
  unfold refreshTokenHandler
  rw [getByRefreshToken_of_noOld users (trimSpace tok) hu]

/-- Invariant of two racing `RefreshToken` requests with the same old
token: before any conditional update fires, the store still holds the
valid old token; once one request wins, the store holds that winner's
fresh token and the other request can only end in `TokenInvalid`. -/
def rtInv (now : Nat) (oldToken new1 new2 : String) (e0 : Nat) (s : RtSys) : Prop :=
  ((s.ph1 = .ready ∨ s.ph1 = .checked) ∧ (s.ph2 = .ready ∨ s.ph2 = .checked) ∧
    ∃ u, s.store = [u] ∧ u.refresh_token = some oldToken ∧
      u.refresh_revoked = false ∧ u.refresh_expires_at = some e0 ∧ ¬ e0 < now)
  ∨ ((∃ uid rid, s.ph1 = .done (.success uid rid new1)) ∧
      (s.ph2 = .ready ∨ s.ph2 = .checked ∨ s.ph2 = .done .tokenInvalid) ∧
      ∃ u, s.store = [u] ∧ u.refresh_token = some new1)
  ∨ ((∃ uid rid, s.ph2 = .done (.success uid rid new2)) ∧
      (s.ph1 = .ready ∨ s.ph1 = .checked ∨ s.ph1 = .done .tokenInvalid) ∧
      ∃ u, s.store = [u] ∧ u.refresh_token = some new2)

lemma rtThreadStep_valid (now : Nat) (freshRT oldToken : String) (e0 : Nat)
    (u : User) (hTok : u.refresh_token = some oldToken)
    (hRev : u.refresh_revoked = false) (hExp : u.refresh_expires_at = some e0)
    (hNotExp : ¬ e0 < now) :
    rtThreadStep now freshRT oldToken .ready [u] = (.checked, [u]) := by
  simp [rtThreadStep, rtReadStep, getByRefreshToken, List.find?, hTok, hRev, hExp, hNotExp]

lemma rtThreadStep_cas_valid (now : Nat) (freshRT oldToken : String)
    (u : User) (hTok : u.refresh_token = some oldToken) :
    rtThreadStep now freshRT oldToken .checked [u]
      = (.done (.success u.id u.role_id freshRT),
         [{ u with refresh_token := some freshRT,
                   refresh_expires_at := some (now + refreshTokenTTL),
                   refresh_revoked := false }]) := by
  simp [rtThreadStep, rtCasStep, rotateRefresh, List.find?, hTok]

lemma rtThreadStep_read_stale (now : Nat) (freshRT oldToken : String)
    (u : User) (hTok : u.refresh_token ≠ some oldToken) :
    rtThreadStep now freshRT oldToken .ready [u] = (.done .tokenInvalid, [u]) := by
  have hb : (u.refresh_token == some oldToken) = false := by simpa using hTok
  simp [rtThreadStep, rtReadStep, getByRefreshToken, List.find?, hb]

lemma rtThreadStep_cas_stale (now : Nat) (freshRT oldToken : String)
    (u : User) (hTok : u.refresh_token ≠ some oldToken) :
    rtThreadStep now freshRT oldToken .checked [u] = (.done .tokenInvalid, [u]) := by
  have hb : (u.refresh_token == some oldToken) = false := by simpa using hTok
  simp [rtThreadStep, rtCasStep, rotateRefresh, List.find?, hb]
  exact fun h => absurd h hTok

lemma rtInv_step (now : Nat) (oldToken new1 new2 : String) (e0 : Nat)
    (h1 : new1 ≠ oldToken) (h2 : new2 ≠ oldToken) (turn : Bool) (s : RtSys)
    (hinv : rtInv now oldToken new1 new2 e0 s) :
    rtInv now oldToken new1 new2 e0 (rtSysStep now oldToken new1 new2 turn s) := by
  have hs1 : ∀ u : User, u.refresh_token = some new1 → u.refresh_token ≠ some oldToken := by
    intro u hu; rw [hu]; simp [h1]
  have hs2 : ∀ u : User, u.refresh_token = some new2 → u.refresh_token ≠ some oldToken := by
    intro u hu; rw [hu]; simp [h2]
  rcases hinv with ⟨hp1, hp2, u, hst, hTok, hRev, hExp, hNotExp⟩ |
    ⟨⟨uid, rid, hp1⟩, hp2, u, hst, hTok⟩ | ⟨⟨uid, rid, hp2⟩, hp1, u, hst, hTok⟩
  · -- nobody has updated yet; the store still holds the valid old token
    cases turn
    · rcases hp2 with hp2 | hp2
      · left
        refine ⟨hp1, ?_, u, ?_, hTok, hRev, hExp, hNotExp⟩ <;>
          simp [rtSysStep, hp2, hst, rtThreadStep_valid now new2 oldToken e0 u hTok hRev hExp hNotExp]
      · right; right
        refine ⟨⟨u.id, u.role_id, ?_⟩, ?_, ?_⟩ <;>
          simp [rtSysStep, hp2, hst, rtThreadStep_cas_valid now new2 oldToken u hTok, hp1] <;>
          tauto
    · rcases hp1 with hp1 | hp1
      · left
        refine ⟨?_, hp2, u, ?_, hTok, hRev, hExp, hNotExp⟩ <;>
          simp [rtSysStep, hp1, hst, rtThreadStep_valid now new1 oldToken e0 u hTok hRev hExp hNotExp]
      · right; left
        refine ⟨⟨u.id, u.role_id, ?_⟩, ?_, ?_⟩ <;>
          simp [rtSysStep, hp1, hst, rtThreadStep_cas_valid now new1 oldToken u hTok, hp2] <;>
          tauto
  · -- request 1 already won
    cases turn
    · rcases hp2 with hp2 | hp2 | hp2
      · right; left
        refine ⟨⟨uid, rid, hp1⟩, ?_, u, ?_, hTok⟩ <;>
          simp [rtSysStep, hp2, hst, rtThreadStep_read_stale now new2 oldToken u (hs1 u hTok)]
      · right; left
        refine ⟨⟨uid, rid, hp1⟩, ?_, u, ?_, hTok⟩ <;>
          simp [rtSysStep, hp2, hst, rtThreadStep_cas_stale now new2 oldToken u (hs1 u hTok)]
      · right; left
        refine ⟨⟨uid, rid, hp1⟩, ?_, u, ?_, hTok⟩ <;>
          simp [rtSysStep, hp2, hst, rtThreadStep]
    · right; left
      refine ⟨⟨uid, rid, ?_⟩, hp2, u, ?_, hTok⟩ <;>
        simp [rtSysStep, hp1, hst, rtThreadStep]
  · -- request 2 already won
    cases turn
    · right; right
      refine ⟨⟨uid, rid, ?_⟩, hp1, u, ?_, hTok⟩ <;>
        simp [rtSysStep, hp2, hst, rtThreadStep]
    · rcases hp1 with hp1 | hp1 | hp1
      · right; right
        refine ⟨⟨uid, rid, hp2⟩, ?_, u, ?_, hTok⟩ <;>
          simp [rtSysStep, hp1, hst, rtThreadStep_read_stale now new1 oldToken u (hs2 u hTok)]
      · right; right
        refine ⟨⟨uid, rid, hp2⟩, ?_, u, ?_, hTok⟩ <;>
          simp [rtSysStep, hp1, hst, rtThreadStep_cas_stale now new1 oldToken u (hs2 u hTok)]
      · right; right
        refine ⟨⟨uid, rid, hp2⟩, ?_, u, ?_, hTok⟩ <;>
          simp [rtSysStep, hp1, hst, rtThreadStep]

lemma rtInv_run (now : Nat) (oldToken new1 new2 : String) (e0 : Nat)
    (h1 : new1 ≠ oldToken) (h2 : new2 ≠ oldToken) (sched : List Bool) (s : RtSys)
    (hinv : rtInv now oldToken new1 new2 e0 s) :
    rtInv now oldToken new1 new2 e0 (rtRun now oldToken new1 new2 sched s) := by
  induction sched generalizing s with
  | nil => exact hinv
  | cons t rest ih =>
    exact ih _ (rtInv_step now oldToken new1 new2 e0 h1 h2 t s hinv)

/-- **C1**: refresh rotation is replay-proof.  First, for two racing
`RotateRefresh` calls with the same valid old token (fresh tokens distinct
from the old one), every interleaving of their store operations in which
both requests finish yields exactly one success and one `TokenInvalid`.
Second, after any `RotateRefresh` keyed on the old token, in every store
reachable by further trust-core operations minting fresh tokens, a
`RefreshToken` request presenting the pre-rotation token fails with
`TokenInvalid` and leaves the store unchanged. -/
theorem c1_refresh_rotation_replay_proof
    (u0 : User) (oldToken new1 new2 : String) (e0 now : Nat)
    (hTok : u0.refresh_token = some oldToken) (hRev : u0.refresh_revoked = false)
    (hExp : u0.refresh_expires_at = some e0) (hNotExp : ¬ e0 < now)
    (h1 : new1 ≠ oldToken) (h2 : new2 ≠ oldToken) :
    (∀ (sched : List Bool) (o1 o2 : RefreshOutcome),
        (rtRun now oldToken new1 new2 sched ⟨[u0], .ready, .ready⟩).ph1 = .done o1 →
        (rtRun now oldToken new1 new2 sched ⟨[u0], .ready, .ready⟩).ph2 = .done o2 →
        ((∃ uid rid, o1 = .success uid rid new1) ∧ o2 = .tokenInvalid) ∨
        (o1 = .tokenInvalid ∧ ∃ uid rid, o2 = .success uid rid new2))
    ∧
    (∀ (users : List User) (newT : String) (newE : Nat), newT ≠ oldToken →
      ∀ later : List User,
        FreshReachable oldToken (rotateRefresh users oldToken newT newE).1 later →
        ∀ (t : Nat) (rt tokInput : String), trimSpace tokInput = oldToken →
          refreshTokenHandler later t rt tokInput = (later, .tokenInvalid)) := by
  constructor
  · intro sched o1 o2 hdone1 hdone2
    have hinit : rtInv now oldToken new1 new2 e0 ⟨[u0], .ready, .ready⟩ :=
      Or.inl ⟨Or.inl rfl, Or.inl rfl, u0, rfl, hTok, hRev, hExp, hNotExp⟩
    have hinv := rtInv_run now oldToken new1 new2 e0 h1 h2 sched _ hinit
    rcases hinv with ⟨hp1, _, _⟩ | ⟨⟨uid, rid, hp1⟩, hp2, _⟩ | ⟨⟨uid, rid, hp2⟩, hp1, _⟩
    · rcases hp1 with h | h <;> rw [hdone1] at h <;> simp at h
    · left
      rw [hdone1] at hp1
      refine ⟨⟨uid, rid, by injection hp1⟩, ?_⟩
      rcases hp2 with h | h | h
      · rw [hdone2] at h; simp at h
      · rw [hdone2] at h; simp at h
      · rw [hdone2] at h; injection h
    · right
      rw [hdone2] at hp2
      refine ⟨?_, ⟨uid, rid, by injection hp2⟩⟩
      rcases hp1 with h | h | h
      · rw [hdone1] at h; simp at h
      · rw [hdone1] at h; simp at h
      · rw [hdone1] at h; injection h
  · intro users newT newE hne later hreach t rt tokInput htrim
    have h0 : noOld oldToken (rotateRefresh users oldToken newT newE).1 :=
      noOld_rotateRefresh_self users newT newE oldToken hne
    have hl : noOld oldToken later := noOld_freshReachable _ _ _ h0 hreach
    exact refreshTokenHandler_of_noOld later t rt tokInput (by rw [htrim]; exact hl)

/-- A user row holding a live refresh token, used to instantiate the
rotation theorems. -/
def sampleUser : User :=
  { id := 7, email := "u@kub.kz", password_hash := bcryptHash "pw",
    role_id := 10, phone := "7700", is_verified := true, verified_at := none,
    refresh_token := some "t0", refresh_expires_at := some 100,
    refresh_revoked := false }

/-- Witness for C1 at a concrete store: live token `"t0"`, fresh tokens
`"n1"`, `"n2"`, current time 50, expiry 100. -/
theorem c1_refresh_rotation_replay_proof_witness :
    (∀ (sched : List Bool) (o1 o2 : RefreshOutcome),
        (rtRun 50 "t0" "n1" "n2" sched ⟨[sampleUser], .ready, .ready⟩).ph1 = .done o1 →
        (rtRun 50 "t0" "n1" "n2" sched ⟨[sampleUser], .ready, .ready⟩).ph2 = .done o2 →
        ((∃ uid rid, o1 = .success uid rid "n1") ∧ o2 = .tokenInvalid) ∨
        (o1 = .tokenInvalid ∧ ∃ uid rid, o2 = .success uid rid "n2"))
    ∧
    (∀ (users : List User) (newT : String) (newE : Nat), newT ≠ "t0" →
      ∀ later : List User,
        FreshReachable "t0" (rotateRefresh users "t0" newT newE).1 later →
        ∀ (t : Nat) (rt tokInput : String), trimSpace tokInput = "t0" →
          refreshTokenHandler later t rt tokInput = (later, .tokenInvalid)) :=
  c1_refresh_rotation_replay_proof sampleUser "t0" "n1" "n2" 100 50
    rfl rfl rfl (by decide) (by decide) (by decide)

lemma getByRefreshToken_eq_some (users : List User) (tok : String) (u : User)
    (h : getByRefreshToken users tok = some u) :
    u.refresh_token = some tok ∧ u ∈ users := by
  unfold getByRefreshToken at h
  have hmem := List.mem_of_find?_eq_some h
  have hp := List.find?_some h
  simp only [beq_iff_eq] at hp
  exact ⟨hp, hmem⟩

/-- A user row whose stored refresh token is both revoked and expired. -/
def revokedUser : User :=
  { id := 3, email := "r@kub.kz", password_hash := bcryptHash "pw",
    role_id := 10, phone := "7701", is_verified := true, verified_at := none,
    refresh_token := some "t0", refresh_expires_at := some 10,
    refresh_revoked := true }

/-- Counterexample to C2 as stated: the conditional update in
`RotateRefresh` is keyed on the token value alone, so it swaps the stored
token even though the row is revoked and expired — the `WHERE` clause has
no `not expired AND not revoked` conjuncts. -/
theorem c2_counterexample :
    revokedUser.refresh_revoked = true ∧
    revokedUser.refresh_expires_at = some 10 ∧ 10 < 50 ∧
    ((rotateRefresh [revokedUser] "t0" "n1" 99).2).isSome = true ∧
    (rotateRefresh [revokedUser] "t0" "n1" 99).1
      = [{ revokedUser with refresh_token := some "n1", refresh_expires_at := some 99, refresh_revoked := false }] := by
  refine ⟨rfl, rfl, by decide, by decide, by decide⟩

/-- **C2** (amended): the `RotateRefresh` swap is an atomic conditional
update that fires exactly when some stored token equals the supplied old
token — expiry and revocation are not part of the update's guard; the
handler checks them beforehand on a separate read, so an unrevoked but
expired token fails with `TokenExpired` before any swap is attempted
(store unchanged), and a revoked token fails with `TokenInvalid` before
any swap is attempted. -/
theorem c2_rotate_swap_guard
    (users : List User) (oldToken newToken rt tok : String) (newE now : Nat)
    (u : User) (e : Nat)
    (hget : getByRefreshToken users (trimSpace tok) = some u)
    (hrev : u.refresh_revoked = false)
    (hexp : u.refresh_expires_at = some e) (hlt : e < now) :
    ((rotateRefresh users oldToken newToken newE).2.isSome = true ↔
      ∃ v ∈ users, v.refresh_token = some oldToken)
    ∧ refreshTokenHandler users now rt tok = (users, .tokenExpired)
    ∧ (∀ (users2 : List User) (tok2 : String) (u2 : User),
        getByRefreshToken users2 (trimSpace tok2) = some u2 →
        u2.refresh_revoked = true →
        ∀ (t2 : Nat) (rt2 : String),
          refreshTokenHandler users2 t2 rt2 tok2 = (users2, .tokenInvalid)) := by
  refine ⟨?_, ?_, ?_⟩
  · simp [rotateRefresh, List.find?_isSome]
  · obtain ⟨htok, -⟩ := getByRefreshToken_eq_some _ _ _ hget
    unfold refreshTokenHandler
    rw [hget]
    simp [htok, hexp, hrev, hlt]
  · intro users2 tok2 u2 hget2 hrev2 t2 rt2
    obtain ⟨htok2, -⟩ := getByRefreshToken_eq_some _ _ _ hget2
    unfold refreshTokenHandler
    rw [hget2]
    simp [htok2, hrev2]

/-- A user row holding the live token `"t1"` that has already expired. -/
def expiredUser : User :=
  { sampleUser with refresh_expires_at := some 20, refresh_token := some "t1" }

/-- Witness for C2: a store holding an expired (unrevoked) token `"t1"`
at time 50. -/
theorem c2_rotate_swap_guard_witness :
    getByRefreshToken [expiredUser] (trimSpace "t1") = some expiredUser ∧
    expiredUser.refresh_revoked = false ∧
    expiredUser.refresh_expires_at = some 20 ∧ 20 < 50 ∧
    (((rotateRefresh [expiredUser] "t1" "n1" 777).2.isSome = true ↔
        ∃ v ∈ [expiredUser], v.refresh_token = some "t1")
      ∧ refreshTokenHandler [expiredUser] 50 "n1" "t1" = ([expiredUser], .tokenExpired)
      ∧ (∀ (users2 : List User) (tok2 : String) (u2 : User),
          getByRefreshToken users2 (trimSpace tok2) = some u2 →
          u2.refresh_revoked = true →
          ∀ (t2 : Nat) (rt2 : String),
            refreshTokenHandler users2 t2 rt2 tok2 = (users2, .tokenInvalid))) :=
  ⟨by decide, rfl, rfl, by decide,
   c2_rotate_swap_guard [expiredUser] "t1" "n1" "n1" "t1" 777 50 expiredUser 20
     (by decide) rfl rfl (by decide)⟩

/-- An unverified user whose stored hash matches the password
`"goodpw"`. -/
def unverifiedUser : User :=
  { id := 11, email := "nv@kub.kz", password_hash := bcryptHash "goodpw",
    role_id := 10, phone := "7702", is_verified := false, verified_at := none,
    refresh_token := none, refresh_expires_at := none, refresh_revoked := false }

/-- Counterexample to C3 as stated: `Login` checks the verification flag
before comparing the password, so an unverified user presenting the WRONG
password still receives `NotVerified` — the `NotVerified` outcome is not
restricted to correct credentials. -/
theorem c3_counterexample :
    (login [unverifiedUser] 0 "rt" "nv@kub.kz" "wrongpw").2 = .notVerified ∧
    bcryptMatch (trimSpace unverifiedUser.password_hash) (trimSpace "wrongpw") = false := by
  refine ⟨by decide, by decide⟩

/-- **C3** (amended): `Login` returns `NotVerified` exactly when the
email resolves to a user whose phone is unverified — the password is not
consulted; in that case the call issues no token and leaves the store
unchanged.  In particular, for every unverified user, `Login` with
correct credentials yields `NotVerified`. -/
theorem c3_login_not_verified
    (users : List User) (now : Nat) (rt email pw : String) :
    ((login users now rt email pw).2 = .notVerified ↔
      ∃ u, getUserByEmail users (trimSpace email) = some u ∧ u.is_verified = false)
    ∧ (∀ u, getUserByEmail users (trimSpace email) = some u → u.is_verified = false →
        login users now rt email pw = (users, .notVerified)) := by
  unfold login
  rcases hg : getUserByEmail users (trimSpace email) with _ | u
  · simp
  · rcases hv : u.is_verified
    · simp [hv]
    · constructor
      · constructor
        · intro h
          by_cases hph : trimSpace u.password_hash == ""
          · simp [hv, hph] at h
          · by_cases hbm : bcryptMatch (trimSpace u.password_hash) (trimSpace pw)
            · simp [hv, hph, hbm] at h
            · simp [hv, hph, hbm] at h
        · rintro ⟨u', hu', hfalse⟩
          have heq := Option.some.inj hu'
          subst heq
          rw [hv] at hfalse
          cases hfalse
      · intro u' hu' hfalse
        have heq := Option.some.inj hu'
        subst heq
        rw [hv] at hfalse
        cases hfalse

/-- Witness for C3 at a one-user store holding an unverified user. -/
theorem c3_login_not_verified_witness :
    ((login [unverifiedUser] 0 "rt" "nv@kub.kz" "goodpw").2 = .notVerified ↔
      ∃ u, getUserByEmail [unverifiedUser] (trimSpace "nv@kub.kz") = some u ∧
        u.is_verified = false)
    ∧ (∀ u, getUserByEmail [unverifiedUser] (trimSpace "nv@kub.kz") = some u →
        u.is_verified = false →
        login [unverifiedUser] 0 "rt" "nv@kub.kz" "goodpw"
          = ([unverifiedUser], .notVerified)) :=
  c3_login_not_verified [unverifiedUser] 0 "rt" "nv@kub.kz" "goodpw"

/-- Counterexample to C4 as stated: with an unverified user in the store,
an unknown email yields `InvalidCredentials` but the known email with a
mismatched password yields `NotVerified` — the two failure causes are
distinguishable, revealing that the email exists. -/
theorem c4_counterexample :
    (login [unverifiedUser] 0 "rt" "zz@kub.kz" "whatever").2 = .invalidCredentials ∧
    (login [unverifiedUser] 0 "rt" "nv@kub.kz" "wrongpw").2 = .notVerified ∧
    LoginOutcome.notVerified ≠ LoginOutcome.invalidCredentials := by
  refine ⟨by decide, by decide, by decide⟩

/-- **C4** (amended): restricted to verified users, unknown-email and
mismatched-password logins are indistinguishable — both produce the same
`InvalidCredentials` outcome with the store unchanged. -/
theorem c4_unknown_vs_mismatch
    (users : List User) (now now2 : Nat) (rt rt2 email1 email2 pw1 pw2 : String)
    (h1 : getUserByEmail users (trimSpace email1) = none)
    (u : User) (h2 : getUserByEmail users (trimSpace email2) = some u)
    (hv : u.is_verified = true)
    (hmm : bcryptMatch (trimSpace u.password_hash) (trimSpace pw2) = false) :
    login users now rt email1 pw1 = (users, .invalidCredentials) ∧
    login users now2 rt2 email2 pw2 = (users, .invalidCredentials) := by
  constructor
  · unfold login; rw [h1]
  · unfold login
    rw [h2]
    simp only [hv, Bool.not_true, Bool.false_eq_true, if_false, hmm]
    split <;> simp

/-- Witness for C4: the verified `sampleUser` store; `"zz@kub.kz"` is
unknown and `"wrongpw"` mismatches the stored hash. -/
theorem c4_unknown_vs_mismatch_witness :
    login [sampleUser] 0 "ws" "zz@kub.kz" "x" = ([sampleUser], .invalidCredentials) ∧
    login [sampleUser] 1 "ws2" "u@kub.kz" "wrongpw" = ([sampleUser], .invalidCredentials) :=
  c4_unknown_vs_mismatch [sampleUser] 0 1 "ws" "ws2" "zz@kub.kz" "u@kub.kz" "x" "wrongpw"
    (by decide) sampleUser (by decide) rfl (by decide)

/-! ### Strict OTP policy (user phone verification) -/

/-- One `user_verifications` row: one row per code-send
(`internal/models`, schema `001_init.up.sql`). -/
structure UserVerification where
  id : Nat
  user_id : Nat
  code_hash : String
  sent_at : Nat
  expires_at : Nat
  confirmed : Bool
  attempts : Nat
  deriving DecidableEq, Repr

/-- `user_verification_repository.go` `Create`: `INSERT ... VALUES (...,
FALSE, 0) RETURNING id`; the fresh id is one more than the table size
(rows of this table are never deleted by the core). -/
def verifCreate (store : List UserVerification) (userID : Nat)
    (codeHash : String) (sentAt expiresAt : Nat) :
    List UserVerification × Nat :=
  let id := store.length + 1
  (store ++ [{ id := id, user_id := userID, code_hash := codeHash,
               sent_at := sentAt, expires_at := expiresAt,
               confirmed := false, attempts := 0 }], id)

/-- Accumulator of the `ORDER BY sent_at DESC LIMIT 1` selection: keep
the row with the greatest `sent_at` seen so far. -/
def latestStep (acc : Option UserVerification) (v : UserVerification) :
    Option UserVerification :=
  match acc with
  | none => some v
  | some w => if w.sent_at < v.sent_at then some v else some w

/-- `GetLatestByUserID`: `ORDER BY sent_at DESC LIMIT 1` over the user's
rows. -/
def getLatestByUserID (store : List UserVerification) (userID : Nat) :
    Option UserVerification :=
  (store.filter (fun v => v.user_id == userID)).foldl latestStep none

/-- `CountRecentSends`: `COUNT(*) WHERE user_id=$1 AND sent_at >= $2`. -/
def countRecentSends (store : List UserVerification) (userID : Nat)
    (since : Nat) : Nat :=
  (store.filter (fun v => v.user_id == userID && since ≤ v.sent_at)).length

/-- `IncrementAttempts`: `UPDATE ... SET attempts = attempts + 1 WHERE
id=$1 RETURNING attempts` (`none` models `sql.ErrNoRows`). -/
def incrementAttempts (store : List UserVerification) (id : Nat) :
    List UserVerification × Option Nat :=
  let store' := store.map (fun v =>
    if v.id == id then { v with attempts := v.attempts + 1 } else v)
  (store', (store'.find? (fun v => v.id == id)).map (fun v => v.attempts))

/-- `MarkConfirmed`: `UPDATE ... SET confirmed=TRUE WHERE id=$1`. -/
def markConfirmed (store : List UserVerification) (id : Nat) :
    List UserVerification :=
  store.map (fun v => if v.id == id then { v with confirmed := true } else v)

/-- `ExpireNow`: `UPDATE ... SET expires_at = NOW() WHERE id=$1` —
force-expire the row without deleting it. -/
def expireNow (store : List UserVerification) (id : Nat) (now : Nat) :
    List UserVerification :=
  store.map (fun v => if v.id == id then { v with expires_at := now } else v)

/-- Outcome of `SendUserSMS`. -/
inductive SendOutcome where
  | resendThrottled
  | sent (id : Nat)
  deriving DecidableEq, Repr

/-- `sms_service.go` `SendUserSMS`: reject with `ResendThrottled` when
the count of send-rows in the trailing window reaches the cap; otherwise
bcrypt-hash the fresh 6-digit code and insert a row with the default TTL.
The gateway dispatch is an external call and does not touch the store. -/
def sendUserSMS (store : List UserVerification) (userID : Nat) (now : Nat)
    (code : String) : List UserVerification × SendOutcome :=
  let since := now - resendWindow
  let cnt := countRecentSends store userID since
  if maxResendsPerWindow ≤ cnt then (store, .resendThrottled)
  else
    let r := verifCreate store userID (bcryptHash code) now (now + defaultVerificationTTL)
    (r.1, .sent r.2)

/-- Outcome of `ConfirmUserCode`. -/
inductive ConfirmUserOutcome where
  | codeInvalid
  | codeExpired
  | tooManyAttempts
  | repoError
  | ok
  deriving DecidableEq, Repr

/-- `sms_service.go` `ConfirmUserCode`: consult only the latest row;
missing or already-confirmed rows fail `CodeInvalid`; stale rows fail
`CodeExpired`; a bcrypt mismatch increments `attempts` and, at the cap,
force-expires the row and fails `TooManyAttempts`, otherwise fails
`CodeInvalid`; on a match the row is marked confirmed and the user's
verified flag is flipped via `VerifyUser`. -/
def confirmUserCode (store : List UserVerification) (users : List User)
    (userID : Nat) (now : Nat) (code : String) :
    List UserVerification × List User × ConfirmUserOutcome :=
  match getLatestByUserID store userID with
  | none => (store, users, .codeInvalid)
  | some v =>
    if v.confirmed then (store, users, .codeInvalid)
    else if v.expires_at < now then (store, users, .codeExpired)
    else if !(bcryptMatch v.code_hash code) then
      match incrementAttempts store v.id with
      | (store', none) => (store', users, .repoError)
      | (store', some attempts) =>
        if maxConfirmAttempts ≤ attempts then
          (expireNow store' v.id now, users, .tooManyAttempts)
        else (store', users, .codeInvalid)
    else
      (markConfirmed store v.id, verifyUser users userID now, .ok)

example :
    (sendUserSMS [] 1 0 "123456").1
      = [{ id := 1, user_id := 1, code_hash := bcryptHash "123456",
           sent_at := 0, expires_at := 5, confirmed := false, attempts := 0 }] := by
  decide

example :
    (confirmUserCode
      [{ id := 1, user_id := 1, code_hash := bcryptHash "123456",
         sent_at := 0, expires_at := 5, confirmed := false, attempts := 4 }]
      [] 1 3 "000000").2.2 = .tooManyAttempts := by decide

lemma latestFold_mem (l : List UserVerification) (acc : Option UserVerification)
    (v : UserVerification) (h : l.foldl latestStep acc = some v) :
    acc = some v ∨ v ∈ l := by
  induction l generalizing acc with
  | nil => exact Or.inl h
  | cons a t ih =>
    simp only [List.foldl_cons] at h
    rcases ih _ h with hstep | hmem
    · rcases acc with _ | w
      · right
        rw [← Option.some.inj hstep]
        exact List.mem_cons_self a t
      · simp only [latestStep] at hstep
        split at hstep
        · right
          rw [← Option.some.inj hstep]
          exact List.mem_cons_self a t
        · left; exact hstep
    · right; exact List.mem_cons_of_mem a hmem

lemma getLatestByUserID_mem (store : List UserVerification) (uid : Nat)
    (v : UserVerification) (h : getLatestByUserID store uid = some v) :
    v ∈ store ∧ v.user_id = uid := by
  unfold getLatestByUserID at h
  rcases latestFold_mem _ none v h with hacc | hmem
  · cases hacc
  · have hf := List.mem_filter.mp hmem
    exact ⟨hf.1, by simpa using hf.2⟩

lemma find?_id_map (store : List UserVerification) (v : UserVerification)
    (g : UserVerification → UserVerification) (hg : ∀ w, (g w).id = w.id)
    (hnodup : (store.map (fun w => w.id)).Nodup) (hv : v ∈ store) :
    (store.map (fun w => if w.id == v.id then g w else w)).find?
        (fun w => w.id == v.id)
      = some (g v) := by
  induction store with
  | nil => cases hv
  | cons a t ih =>
    simp only [List.map_cons, List.nodup_cons] at hnodup
    rcases List.mem_cons.mp hv with rfl | hvt
    · have hhead : (if (v.id == v.id) = true then g v else v) = g v := by simp
      simp only [List.map_cons, hhead]
      rw [List.find?_cons_of_pos _ (by simp [hg])]
    · have hne : a.id ≠ v.id := by
        intro he
        exact hnodup.1 (he ▸ List.mem_map.mpr ⟨v, hvt, rfl⟩)
      have hhead : (if (a.id == v.id) = true then g a else a) = a := by simp [hne]
      simp only [List.map_cons, hhead]
      rw [List.find?_cons_of_neg _ (by simp [hne])]
      exact ih hnodup.2 hvt

lemma incrementAttempts_eq (store : List UserVerification) (v : UserVerification)
    (hnodup : (store.map (fun w => w.id)).Nodup) (hv : v ∈ store) :
    incrementAttempts store v.id
      = (store.map (fun w =>
           if w.id == v.id then { w with attempts := w.attempts + 1 } else w),
         some (v.attempts + 1)) := by
  unfold incrementAttempts
  simp only [find?_id_map store v (fun w => { w with attempts := w.attempts + 1 })
    (fun w => rfl) hnodup hv]
  rfl

lemma latestFold_map (l : List UserVerification)
    (g : UserVerification → UserVerification)
    (hs : ∀ w, (g w).sent_at = w.sent_at) (acc : Option UserVerification) :
    (l.map g).foldl latestStep (acc.map g) = (l.foldl latestStep acc).map g := by
  induction l generalizing acc with
  | nil => rfl
  | cons a t ih =>
    simp only [List.map_cons, List.foldl_cons]
    have hstep : latestStep (acc.map g) (g a) = (latestStep acc a).map g := by
      rcases acc with _ | w
      · rfl
      · show latestStep (some (g w)) (g a) = Option.map g (latestStep (some w) a)
        simp only [latestStep, hs]
        by_cases hlt : w.sent_at < a.sent_at
        · simp [hlt]
        · simp [hlt]
    rw [hstep]
    exact ih _

lemma getLatestByUserID_map_keyed (store : List UserVerification) (uid : Nat)
    (g : UserVerification → UserVerification)
    (hu : ∀ w, (g w).user_id = w.user_id) (hs : ∀ w, (g w).sent_at = w.sent_at) :
    getLatestByUserID (store.map g) uid
      = (getLatestByUserID store uid).map g := by
  unfold getLatestByUserID
  rw [List.filter_map]
  have hp : (fun v : UserVerification => v.user_id == uid) ∘ g
      = fun v => v.user_id == uid := by
    funext w; simp [Function.comp, hu]
  rw [hp]
  simpa using latestFold_map (store.filter (fun v => v.user_id == uid)) g hs none

lemma expireNow_map_inc (store : List UserVerification) (idv : Nat) (now : Nat) :
    expireNow
        (store.map (fun w =>
          if w.id == idv then { w with attempts := w.attempts + 1 } else w))
        idv now
      = store.map (fun w =>
          if w.id == idv then { w with attempts := w.attempts + 1, expires_at := now }
          else w) := by
  unfold expireNow
  rw [List.map_map]
  have hfun :
      (fun w : UserVerification => if w.id == idv then { w with expires_at := now } else w)
          ∘ (fun w => if w.id == idv then { w with attempts := w.attempts + 1 } else w)
        = fun w => if w.id == idv then { w with attempts := w.attempts + 1, expires_at := now }
            else w := by
    funext w
    by_cases hw : w.id = idv
    · simp [Function.comp, hw]
    · simp [Function.comp, hw]
  rw [hfun]

/-- **C5**: strict-policy confirm attempts.  With the latest record live
(unconfirmed, unexpired) and a wrong code: below the cap the call
increments `attempts` and fails `CodeInvalid`; when the incremented
counter reaches the cap of 5, the record is force-expired (`expires_at`
set to the current instant) and `TooManyAttempts` is returned instead;
and after that force-expiry every strictly later confirm — the
originally correct code included — fails with `CodeExpired`, never
succeeding. -/
theorem c5_strict_confirm_attempt_cap
    (store : List UserVerification) (users : List User) (userID : Nat)
    (now : Nat) (code : String) (v : UserVerification)
    (hnodup : (store.map (fun w => w.id)).Nodup)
    (hlatest : getLatestByUserID store userID = some v)
    (hconf : v.confirmed = false)
    (hfresh : ¬ v.expires_at < now)
    (hwrong : bcryptMatch v.code_hash code = false) :
    (v.attempts + 1 < maxConfirmAttempts →
      confirmUserCode store users userID now code
        = (store.map (fun w =>
             if w.id == v.id then { w with attempts := w.attempts + 1 } else w),
           users, .codeInvalid))
    ∧ (maxConfirmAttempts ≤ v.attempts + 1 →
        confirmUserCode store users userID now code
          = (store.map (fun w =>
               if w.id == v.id then
                 { w with attempts := w.attempts + 1, expires_at := now }
               else w),
             users, .tooManyAttempts)
        ∧ getLatestByUserID (confirmUserCode store users userID now code).1 userID
            = some { v with attempts := v.attempts + 1, expires_at := now }
        ∧ (∀ (t6 : Nat) (users6 : List User) (code6 : String), now < t6 →
            confirmUserCode (confirmUserCode store users userID now code).1
                users6 userID t6 code6
              = ((confirmUserCode store users userID now code).1, users6,
                 .codeExpired))) := by
  have hmem := (getLatestByUserID_mem store userID v hlatest).1
  have hinc := incrementAttempts_eq store v hnodup hmem
  have hrun :
      confirmUserCode store users userID now code
        = if maxConfirmAttempts ≤ v.attempts + 1 then
            (expireNow (store.map (fun w =>
               if w.id == v.id then { w with attempts := w.attempts + 1 } else w))
               v.id now,
             users, .tooManyAttempts)
          else
            (store.map (fun w =>
               if w.id == v.id then { w with attempts := w.attempts + 1 } else w),
             users, .codeInvalid) := by
    unfold confirmUserCode
    rw [hlatest]
    dsimp only
    rw [hinc]
    dsimp only
    rw [if_neg (show ¬ v.confirmed = true by simp [hconf]), if_neg hfresh,
        if_pos (show (!bcryptMatch v.code_hash code) = true by simp [hwrong])]
  constructor
  · intro hlt
    rw [hrun, if_neg (by omega)]
  · intro hge
    have heq :
        confirmUserCode store users userID now code
          = (store.map (fun w =>
               if w.id == v.id then
                 { w with attempts := w.attempts + 1, expires_at := now }
               else w),
             users, .tooManyAttempts) := by
      rw [hrun, if_pos hge, expireNow_map_inc]
    have hu2 : ∀ w : UserVerification,
        ((fun w => if w.id == v.id then
            { w with attempts := w.attempts + 1, expires_at := now } else w) w).user_id
          = w.user_id := by
      intro w; by_cases h : w.id = v.id <;> simp [h]
    have hs2 : ∀ w : UserVerification,
        ((fun w => if w.id == v.id then
            { w with attempts := w.attempts + 1, expires_at := now } else w) w).sent_at
          = w.sent_at := by
      intro w; by_cases h : w.id = v.id <;> simp [h]
    have hlatest2 :
        getLatestByUserID
            (store.map (fun w =>
              if w.id == v.id then
                { w with attempts := w.attempts + 1, expires_at := now }
              else w)) userID
          = some { v with attempts := v.attempts + 1, expires_at := now } := by
      rw [getLatestByUserID_map_keyed store userID _ hu2 hs2, hlatest]
      simp
    refine ⟨heq, ?_, ?_⟩
    · rw [heq]
      exact hlatest2
    · intro t6 users6 code6 hlt6
      rw [heq]
      show confirmUserCode
          (store.map (fun w =>
            if w.id == v.id then
              { w with attempts := w.attempts + 1, expires_at := now }
            else w)) users6 userID t6 code6
        = (store.map (fun w =>
            if w.id == v.id then
              { w with attempts := w.attempts + 1, expires_at := now }
            else w), users6, .codeExpired)
      unfold confirmUserCode
      rw [hlatest2]
      dsimp only
      rw [if_neg (show ¬ v.confirmed = true by simp [hconf]), if_pos hlt6]

/-- The strict-policy record used to instantiate C5: four failed
attempts already recorded against the hash of `"123456"`. -/
def strainedVerification : UserVerification :=
  { id := 1, user_id := 1, code_hash := bcryptHash "123456",
    sent_at := 0, expires_at := 5, confirmed := false, attempts := 4 }

/-- Witness for C5 at a one-row store whose record already carries 4
failed attempts, confirming with a wrong code at time 3. -/
theorem c5_strict_confirm_attempt_cap_witness :
    (strainedVerification.attempts + 1 < maxConfirmAttempts →
      confirmUserCode [strainedVerification] [] 1 3 "000000"
        = ([strainedVerification].map (fun w =>
             if w.id == strainedVerification.id then
               { w with attempts := w.attempts + 1 } else w),
           [], .codeInvalid))
    ∧ (maxConfirmAttempts ≤ strainedVerification.attempts + 1 →
        confirmUserCode [strainedVerification] [] 1 3 "000000"
          = ([strainedVerification].map (fun w =>
               if w.id == strainedVerification.id then
                 { w with attempts := w.attempts + 1, expires_at := 3 }
               else w),
             [], .tooManyAttempts)
        ∧ getLatestByUserID (confirmUserCode [strainedVerification] [] 1 3 "000000").1 1
            = some { strainedVerification with attempts := strainedVerification.attempts + 1, expires_at := 3 }
        ∧ (∀ (t6 : Nat) (users6 : List User) (code6 : String), 3 < t6 →
            confirmUserCode (confirmUserCode [strainedVerification] [] 1 3 "000000").1
                users6 1 t6 code6
              = ((confirmUserCode [strainedVerification] [] 1 3 "000000").1, users6,
                 .codeExpired))) :=
  c5_strict_confirm_attempt_cap [strainedVerification] [] 1 3 "000000"
    strainedVerification (by decide) (by decide) (by decide) (by decide) (by decide)

lemma sendUserSMS_throttled (store : List UserVerification) (uid : Nat)
    (now : Nat) (code : String)
    (h : maxResendsPerWindow ≤ countRecentSends store uid (now - resendWindow)) :
    sendUserSMS store uid now code = (store, .resendThrottled) := by
  unfold sendUserSMS
  rw [if_pos h]

lemma sendUserSMS_sent (store : List UserVerification) (uid : Nat)
    (now : Nat) (code : String)
    (h : countRecentSends store uid (now - resendWindow) < maxResendsPerWindow) :
    sendUserSMS store uid now code
      = (store ++ [{ id := store.length + 1, user_id := uid,
                     code_hash := bcryptHash code, sent_at := now,
                     expires_at := now + defaultVerificationTTL,
                     confirmed := false, attempts := 0 }],
         .sent (store.length + 1)) := by
  unfold sendUserSMS verifCreate
  rw [if_neg (by omega)]

lemma countRecentSends_append (a b : List UserVerification) (uid : Nat)
    (since : Nat) :
    countRecentSends (a ++ b) uid since
      = countRecentSends a uid since + countRecentSends b uid since := by
  simp [countRecentSends, List.filter_append]

lemma countRecentSends_zero (store : List UserVerification) (uid : Nat)
    (since : Nat) (h : ∀ v ∈ store, v.user_id ≠ uid) :
    countRecentSends store uid since = 0 := by
  unfold countRecentSends
  rw [List.length_eq_zero, List.filter_eq_nil]
  intro v hv
  simp [h v hv]

lemma countRecentSends_singleton (r : UserVerification) (uid : Nat)
    (since : Nat) :
    countRecentSends [r] uid since
      = if r.user_id = uid ∧ since ≤ r.sent_at then 1 else 0 := by
  simp only [countRecentSends, List.filter_singleton]
  by_cases h1 : r.user_id = uid
  · by_cases h2 : since ≤ r.sent_at
    · rw [if_pos ⟨h1, h2⟩]; simp [h1, h2]
    · rw [if_neg (by tauto)]; simp [h1, h2]
  · rw [if_neg (by tauto)]
    have hb : (r.user_id == uid) = false := by simpa using h1
    simp [hb]

/-- **C6**: strict-policy resend throttling.  `SendUserSMS` rejects with
`ResendThrottled` exactly when the count of send-rows for the user in the
trailing 10-minute window has reached the cap of 3; in particular,
starting from a store with no rows for the user, four sends within one
window succeed three times and are throttled on the fourth. -/
theorem c6_resend_throttle
    (s0 : List UserVerification) (uid : Nat) (t1 t2 t3 t4 : Nat)
    (a1 a2 a3 a4 : String)
    (h0 : ∀ v ∈ s0, v.user_id ≠ uid)
    (h12 : t1 ≤ t2) (h23 : t2 ≤ t3) (h34 : t3 ≤ t4)
    (hwin : t4 ≤ t1 + resendWindow) :
    (∀ (store : List UserVerification) (u : Nat) (now : Nat) (c : String),
        (sendUserSMS store u now c).2 = .resendThrottled ↔
          maxResendsPerWindow ≤ countRecentSends store u (now - resendWindow))
    ∧ (sendUserSMS s0 uid t1 a1).2 ≠ .resendThrottled
    ∧ (sendUserSMS (sendUserSMS s0 uid t1 a1).1 uid t2 a2).2 ≠ .resendThrottled
    ∧ (sendUserSMS (sendUserSMS (sendUserSMS s0 uid t1 a1).1 uid t2 a2).1
        uid t3 a3).2 ≠ .resendThrottled
    ∧ (sendUserSMS (sendUserSMS (sendUserSMS (sendUserSMS s0 uid t1 a1).1
        uid t2 a2).1 uid t3 a3).1 uid t4 a4).2 = .resendThrottled := by
  have hiff : ∀ (store : List UserVerification) (u : Nat) (now : Nat) (c : String),
      (sendUserSMS store u now c).2 = .resendThrottled ↔
        maxResendsPerWindow ≤ countRecentSends store u (now - resendWindow) := by
    intro store u now c
    constructor
    · intro hthr
      by_contra hlt
      rw [sendUserSMS_sent store u now c (by omega)] at hthr
      simp at hthr
    · intro h
      rw [sendUserSMS_throttled store u now c h]
  have hw1 : t2 - resendWindow ≤ t1 := by omega
  have hw2 : t3 - resendWindow ≤ t1 := by omega
  have hw3 : t3 - resendWindow ≤ t2 := by omega
  have hw4 : t4 - resendWindow ≤ t1 := by omega
  have hw5 : t4 - resendWindow ≤ t2 := by omega
  have hw6 : t4 - resendWindow ≤ t3 := by omega
  have hcnt1 : countRecentSends s0 uid (t1 - resendWindow) < maxResendsPerWindow := by
    rw [countRecentSends_zero _ _ _ h0]; decide
  have hs1 := sendUserSMS_sent s0 uid t1 a1 hcnt1
  have hcnt2 : countRecentSends (sendUserSMS s0 uid t1 a1).1 uid
      (t2 - resendWindow) = 1 := by
    rw [hs1]
    dsimp only
    rw [countRecentSends_append, countRecentSends_zero _ _ _ h0,
        countRecentSends_singleton,
        if_pos ⟨rfl, hw1⟩]
  have hs2 := sendUserSMS_sent (sendUserSMS s0 uid t1 a1).1 uid t2 a2
    (by rw [hcnt2]; decide)
  have hcnt3 : countRecentSends
      (sendUserSMS (sendUserSMS s0 uid t1 a1).1 uid t2 a2).1 uid
      (t3 - resendWindow) = 2 := by
    rw [hs2]
    dsimp only
    rw [countRecentSends_append, hs1]
    dsimp only
    rw [countRecentSends_append, countRecentSends_zero _ _ _ h0,
        countRecentSends_singleton, countRecentSends_singleton,
        if_pos ⟨rfl, hw2⟩,
        if_pos ⟨rfl, hw3⟩]
  have hs3 := sendUserSMS_sent
    (sendUserSMS (sendUserSMS s0 uid t1 a1).1 uid t2 a2).1 uid t3 a3
    (by rw [hcnt3]; decide)
  have hcnt4 : countRecentSends
      (sendUserSMS (sendUserSMS (sendUserSMS s0 uid t1 a1).1 uid t2 a2).1
        uid t3 a3).1 uid (t4 - resendWindow) = 3 := by
    rw [hs3]
    dsimp only
    rw [countRecentSends_append, hs2]
    dsimp only
    rw [countRecentSends_append, hs1]
    dsimp only
    rw [countRecentSends_append, countRecentSends_zero _ _ _ h0,
        countRecentSends_singleton, countRecentSends_singleton,
        countRecentSends_singleton,
        if_pos ⟨rfl, hw4⟩,
        if_pos ⟨rfl, hw5⟩,
        if_pos ⟨rfl, hw6⟩]
  refine ⟨hiff, ?_, ?_, ?_, ?_⟩
  · rw [hs1]; simp
  · rw [hs2]; simp
  · rw [hs3]; simp
  · rw [sendUserSMS_throttled _ _ _ _ (by rw [hcnt4]; decide)]

/-- Witness for C6: four sends for user 1 at times 0, 1, 2, 3 from an
empty store. -/
theorem c6_resend_throttle_witness :
    (∀ (store : List UserVerification) (u : Nat) (now : Nat) (c : String),
        (sendUserSMS store u now c).2 = .resendThrottled ↔
          maxResendsPerWindow ≤ countRecentSends store u (now - resendWindow))
    ∧ (sendUserSMS [] 1 0 "111111").2 ≠ .resendThrottled
    ∧ (sendUserSMS (sendUserSMS [] 1 0 "111111").1 1 1 "222222").2 ≠ .resendThrottled
    ∧ (sendUserSMS (sendUserSMS (sendUserSMS [] 1 0 "111111").1 1 1 "222222").1
        1 2 "333333").2 ≠ .resendThrottled
    ∧ (sendUserSMS (sendUserSMS (sendUserSMS (sendUserSMS [] 1 0 "111111").1
        1 1 "222222").1 1 2 "333333").1 1 3 "444444").2 = .resendThrottled :=
  c6_resend_throttle [] 1 0 1 2 3 "111111" "222222" "333333" "444444"
    (by simp) (by decide) (by decide) (by decide) (by decide)

/-! ### Document trust state machine -/

/-- Role constants from `internal/authz/roles.go`. -/
def RoleSales : Nat := 10

def RoleStaff : Nat := 15

def RoleOperations : Nat := 20

def RoleAudit : Nat := 30

def RoleManagement : Nat := 40

def RoleAdmin : Nat := 50

/-- `authz.IsElevated`. -/
def isElevated (roleID : Nat) : Bool :=
  roleID == RoleOperations || roleID == RoleManagement || roleID == RoleAdmin

/-- `authz.IsReadOnly`. -/
def isReadOnly (roleID : Nat) : Bool := roleID == RoleAudit

/-- `models.Leads`: the fields the trust core reads. -/
structure Lead where
  id : Nat
  title : String
  owner_id : Nat
  deriving DecidableEq, Repr

/-- `models.Deal`: the fields the trust core reads. -/
structure Deal where
  id : Nat
  lead_id : Nat
  owner_id : Nat
  deriving DecidableEq, Repr

/-- `models.Document` (`documents` table): status is a free-form string
in the source; `signed_at` is nullable. -/
structure Document where
  id : Nat
  deal_id : Nat
  doc_type : String
  file_path : String
  status : String
  signed_at : Option Nat
  deriving DecidableEq, Repr

/-- `DocumentRepository.GetByID`. -/
def docGetByID (docs : List Document) (id : Nat) : Option Document :=
  docs.find? (fun d => d.id == id)

/-- `DocumentRepository.Update`: full-row update keyed on id. -/
def docUpdate (docs : List Document) (doc : Document) : List Document :=
  docs.map (fun d => if d.id == doc.id then doc else d)

/-- `DocumentRepository.UpdateStatus`: `UPDATE documents SET status=$1
WHERE id=$2`. -/
def docUpdateStatus (docs : List Document) (id : Nat) (status : String) :
    List Document :=
  docs.map (fun d => if d.id == id then { d with status := status } else d)

/-- `DocumentRepository.Create`: `INSERT ... RETURNING id`; the fresh id
is one more than the table size. -/
def docCreate (docs : List Document) (doc : Document) : List Document × Nat :=
  let id := docs.length + 1
  (docs ++ [{ doc with id := id }], id)

/-- `DealRepository.GetByID`. -/
def dealGetByID (deals : List Deal) (id : Nat) : Option Deal :=
  deals.find? (fun d => d.id == id)

/-- `LeadRepository.GetByID`. -/
def leadGetByID (leads : List Lead) (id : Nat) : Option Lead :=
  leads.find? (fun l => l.id == id)

/-- Model of Go's `filepath.Base`: `"."` for the empty path, `"/"` for
all-slash paths, otherwise the last path element with trailing slashes
removed. -/
def filepathBase (path : String) : String :=
  if path.data.isEmpty then "."
  else
    let cs := (path.data.reverse.dropWhile (fun c => c == '/')).reverse
    if cs.isEmpty then "/"
    else ⟨(cs.reverse.takeWhile (fun c => !(c == '/'))).reverse⟩

/-- `document_service.go` `CreateDocument` (lines 49-121): read-only
roles are rejected; the deal must exist and a Sales caller must own it;
a blank status defaults to `"draft"` but a caller-supplied status is
kept; for `contract`/`invoice` the PDF generator supplies the file path
(`pdfConfigured` models `s.PDFGen != nil`; `genContract`/`genInvoice`
model the generator results, `none` on generation failure); other doc
types keep the basename of the supplied path, rejecting an empty one.
The inserted row carries the document's `signed_at` as given (`nil ок`
in `DocumentRepository.Create`). -/
def createDocument (docs : List Document) (deals : List Deal)
    (leads : List Lead) (pdfConfigured : Bool)
    (genContract genInvoice : Option String) (doc : Document)
    (userID roleID : Nat) : List Document × Except String Nat :=
  if isReadOnly roleID then (docs, .error "read-only role")
  else if doc.deal_id == 0 then (docs, .error "deal not found")
  else
    match dealGetByID deals doc.deal_id with
    | none => (docs, .error "deal not found")
    | some deal =>
      if roleID == RoleSales && deal.owner_id != userID then
        (docs, .error "forbidden")
      else
        let status := if trimSpace doc.status == "" then "draft" else doc.status
        let filename := filepathBase (trimSpace doc.file_path)
        if doc.doc_type == "contract" || doc.doc_type == "invoice" then
          if !pdfConfigured then (docs, .error "pdf generator not configured")
          else
            match leadGetByID leads deal.lead_id with
            | none => (docs, .error "lead not found")
            | some _ =>
              match (if doc.doc_type == "contract" then genContract else genInvoice) with
              | none => (docs, .error "pdf generation failed")
              | some relPath =>
                let r := docCreate docs
                  { doc with status := status, file_path := relPath }
                (r.1, .ok r.2)
        else
          if filename == "" then (docs, .error "unsupported doc_type")
          else
            let r := docCreate docs
              { doc with status := status, file_path := filename }
            (r.1, .ok r.2)

/-- `document_service.go` `Submit` (draft → under_review): read-only
roles rejected; Sales may only submit documents of their own deal;
`InvalidState` when the status is not `draft`. -/
def submitDocument (docs : List Document) (deals : List Deal) (id : Nat)
    (userID roleID : Nat) : List Document × Option String :=
  if isReadOnly roleID then (docs, some "read-only role")
  else
    match docGetByID docs id with
    | none => (docs, some "not found")
    | some doc =>
      match dealGetByID deals doc.deal_id with
      | none => (docs, some "not found")
      | some deal =>
        if roleID == RoleSales && deal.owner_id != userID then
          (docs, some "forbidden")
        else if doc.status != "draft" then (docs, some "invalid status")
        else (docUpdateStatus docs id "under_review", none)

/-- `document_service.go` `Review` (under_review → approved|returned):
only Operations/Management/Admin; `InvalidState` when the status is not
`under_review`. -/
def reviewDocument (docs : List Document) (id : Nat) (action : String)
    (userID roleID : Nat) : List Document × Option String :=
  if !(roleID == RoleOperations || roleID == RoleManagement || roleID == RoleAdmin) then
    (docs, some "forbidden")
  else
    match docGetByID docs id with
    | none => (docs, some "not found")
    | some doc =>
      if doc.status != "under_review" then (docs, some "invalid status")
      else if action == "approve" then (docUpdateStatus docs id "approved", none)
      else if action == "return" then (docUpdateStatus docs id "returned", none)
      else (docs, some "bad action")

/-- `document_service.go` `Sign` (approved|returned → signed, explicit
path): only Management/Admin; sets `signed_at` together with the status. -/
def signDocument (docs : List Document) (id : Nat) (userID roleID : Nat)
    (now : Nat) : List Document × Option String :=
  if !(roleID == RoleManagement || roleID == RoleAdmin) then
    (docs, some "forbidden")
  else
    match docGetByID docs id with
    | none => (docs, some "not found")
    | some doc =>
      if !(doc.status == "approved" || doc.status == "returned") then
        (docs, some "invalid status")
      else (docUpdate docs { doc with status := "signed", signed_at := some now }, none)

/-- `document_service.go` `SignBySMS` (lines 245-260): the confirm-driven
sign invoked from the relaxed OTP confirmation — no role parameter at
all; allowed from `approved`, `returned`, or `under_review`; sets
`signed_at` together with the status. -/
def signBySMS (docs : List Document) (docID : Nat) (now : Nat) :
    List Document × Option String :=
  match docGetByID docs docID with
  | none => (docs, some "not found")
  | some doc =>
    if !(doc.status == "approved" || doc.status == "returned" ||
         doc.status == "under_review") then
      (docs, some "invalid status")
    else (docUpdate docs { doc with status := "signed", signed_at := some now }, none)

/-- One `sms_confirmations` row (relaxed policy): the code is stored in
clear; `confirmed_at` uses 0 for Go's zero `time.Time`. -/
structure SMSConfirmation where
  id : Nat
  document_id : Nat
  phone : String
  sms_code : String
  sent_at : Nat
  confirmed : Bool
  confirmed_at : Nat
  deriving DecidableEq, Repr

/-- `SMSConfirmationRepository.GetByDocumentIDAndCode`: `SELECT ... WHERE
document_id = $1 AND sms_code = $2` (first matching row). -/
def smsGetByDocumentIDAndCode (store : List SMSConfirmation) (docID : Nat)
    (code : String) : Option SMSConfirmation :=
  store.find? (fun r => r.document_id == docID && r.sms_code == code)

/-- `SMSConfirmationRepository.Update`: full-row update keyed on id. -/
def smsUpdate (store : List SMSConfirmation) (r : SMSConfirmation) :
    List SMSConfirmation :=
  store.map (fun w => if w.id == r.id then r else w)

/-- `SMS_Service.IsCodeExpired`: `time.Now().After(sentAt.Add(ttl))` with
the default TTL. -/
def isCodeExpired (now sentAt : Nat) : Bool :=
  decide (sentAt + defaultVerificationTTL < now)

/-- Outcome of the relaxed-policy `ConfirmCode`. -/
inductive ConfirmDocOutcome where
  | noMatch
  | signFailed (msg : String)
  | ok
  deriving DecidableEq, Repr

/-- `sms_service.go` `ConfirmCode` (lines 117-139, relaxed policy): match
the record by exact code value; confirmed or expired records soft-fail;
on a match the record is marked confirmed and persisted
(`s.Repo.Update`) BEFORE `SignBySMS` is invoked, and a sign failure is
returned as an error while the update stays persisted. -/
def confirmCode (sms : List SMSConfirmation) (docs : List Document)
    (docID : Nat) (code : String) (now : Nat) :
    List SMSConfirmation × List Document × ConfirmDocOutcome :=
  match smsGetByDocumentIDAndCode sms docID code with
  | none => (sms, docs, .noMatch)
  | some r =>
    if r.confirmed || isCodeExpired now r.sent_at then (sms, docs, .noMatch)
    else
      let sms' := smsUpdate sms { r with confirmed := true, confirmed_at := now }
      match signBySMS docs docID now with
      | (docs', none) => (sms', docs', .ok)
      | (docs', some e) => (sms', docs', .signFailed e)

example :
    (signBySMS [{ id := 1, deal_id := 1, doc_type := "contract",
                  file_path := "c.pdf", status := "under_review",
                  signed_at := none }] 1 9).1
      = [{ id := 1, deal_id := 1, doc_type := "contract",
           file_path := "c.pdf", status := "signed", signed_at := some 9 }] := by
  decide

example :
    (confirmCode [{ id := 1, document_id := 5, phone := "77",
                    sms_code := "9999", sent_at := 0, confirmed := false,
                    confirmed_at := 0 }] [] 5 "9999" 1).2.2
      = .signFailed "not found" := by decide

/-- **C7**: `SignBySMS` — the confirm-driven sign transition, which takes
no role argument — moves a document to `signed` (setting `signed_at`)
from any of `under_review`, `approved`, or `returned`, including directly
from `under_review`, and returns an error (`invalid status` or `not
found`) whenever the document's status is outside that set or the
document is missing. -/
theorem c7_confirm_driven_sign (docs : List Document) (docID : Nat) (now : Nat) :
    (∀ doc, docGetByID docs docID = some doc →
      ((doc.status = "under_review" ∨ doc.status = "approved" ∨
          doc.status = "returned") →
        signBySMS docs docID now
          = (docUpdate docs { doc with status := "signed", signed_at := some now },
             none))
      ∧ (¬(doc.status = "under_review" ∨ doc.status = "approved" ∨
            doc.status = "returned") →
        signBySMS docs docID now = (docs, some "invalid status")))
    ∧ (docGetByID docs docID = none →
        signBySMS docs docID now = (docs, some "not found")) := by
  constructor
  · intro doc hdoc
    constructor
    · intro hst
      have hb : (doc.status == "approved" || doc.status == "returned" ||
          doc.status == "under_review") = true := by
        rcases hst with h | h | h <;> simp [h]
      unfold signBySMS
      rw [hdoc]
      dsimp only
      rw [if_neg (by simp [hb])]
    · intro hst
      push_neg at hst
      obtain ⟨h1, h2, h3⟩ := hst
      have hb : (doc.status == "approved" || doc.status == "returned" ||
          doc.status == "under_review") = false := by
        simp [h1, h2, h3]
      unfold signBySMS
      rw [hdoc]
      dsimp only
      rw [if_pos (by simp [hb])]
  · intro hnone
    unfold signBySMS
    rw [hnone]

/-- A document sitting in `under_review`, used to instantiate the
document state-machine theorems. -/
def reviewDoc : Document :=
  { id := 1, deal_id := 1, doc_type := "contract", file_path := "c.pdf",
    status := "under_review", signed_at := none }

/-- Witness for C7 at a one-document store in `under_review`. -/
theorem c7_confirm_driven_sign_witness :
    (∀ doc, docGetByID [reviewDoc] 1 = some doc →
      ((doc.status = "under_review" ∨ doc.status = "approved" ∨
          doc.status = "returned") →
        signBySMS [reviewDoc] 1 9
          = (docUpdate [reviewDoc] { doc with status := "signed", signed_at := some 9 },
             none))
      ∧ (¬(doc.status = "under_review" ∨ doc.status = "approved" ∨
            doc.status = "returned") →
        signBySMS [reviewDoc] 1 9 = ([reviewDoc], some "invalid status")))
    ∧ (docGetByID [reviewDoc] 1 = none →
        signBySMS [reviewDoc] 1 9 = ([reviewDoc], some "not found")) :=
  c7_confirm_driven_sign [reviewDoc] 1 9

/-- **C8**: for any found document, `Review` fails when the status is
`draft` or `signed` — with the specific `invalid status` error once the
caller holds an authorized role (Operations/Management/Admin) — and
explicit `Sign` fails when the status is `draft` or `under_review`, with
`invalid status` for an authorized role (Management/Admin). -/
theorem c8_review_sign_state_guards
    (docs : List Document) (id : Nat) (action : String) (userID roleID : Nat)
    (now : Nat) (doc : Document) (hdoc : docGetByID docs id = some doc) :
    ((doc.status = "draft" ∨ doc.status = "signed") →
      (reviewDocument docs id action userID roleID).2 ≠ none
      ∧ ((roleID = RoleOperations ∨ roleID = RoleManagement ∨ roleID = RoleAdmin) →
          reviewDocument docs id action userID roleID = (docs, some "invalid status")))
    ∧ ((doc.status = "draft" ∨ doc.status = "under_review") →
      (signDocument docs id userID roleID now).2 ≠ none
      ∧ ((roleID = RoleManagement ∨ roleID = RoleAdmin) →
          signDocument docs id userID roleID now = (docs, some "invalid status"))) := by
  constructor
  · intro hst
    have hne : (doc.status != "under_review") = true := by
      rcases hst with h | h <;> rw [h] <;> decide
    have hgate : ∀ hrole : (roleID == RoleOperations || roleID == RoleManagement ||
        roleID == RoleAdmin) = true,
        reviewDocument docs id action userID roleID = (docs, some "invalid status") := by
      intro hrole
      unfold reviewDocument
      rw [if_neg (by simp [hrole])]
      rw [hdoc]
      dsimp only
      rw [if_pos hne]
    constructor
    · by_cases hrole : (roleID == RoleOperations || roleID == RoleManagement ||
        roleID == RoleAdmin) = true
      · rw [hgate hrole]; simp
      · unfold reviewDocument
        rw [if_pos (by simpa using hrole)]
        simp
    · intro hrole
      refine hgate ?_
      rcases hrole with h | h | h <;> simp [h]
  · intro hst
    have hne : (doc.status == "approved" || doc.status == "returned") = false := by
      rcases hst with h | h <;> rw [h] <;> decide
    have hgate : ∀ hrole : (roleID == RoleManagement || roleID == RoleAdmin) = true,
        signDocument docs id userID roleID now = (docs, some "invalid status") := by
      intro hrole
      unfold signDocument
      rw [if_neg (by simp [hrole])]
      rw [hdoc]
      dsimp only
      rw [if_pos (by simp [hne])]
    constructor
    · by_cases hrole : (roleID == RoleManagement || roleID == RoleAdmin) = true
      · rw [hgate hrole]; simp
      · unfold signDocument
        rw [if_pos (by simpa using hrole)]
        simp
    · intro hrole
      refine hgate ?_
      rcases hrole with h | h <;> simp [h]

/-- A draft document, used to instantiate the state-guard theorems. -/
def draftDoc : Document :=
  { id := 2, deal_id := 1, doc_type := "contract", file_path := "c.pdf",
    status := "draft", signed_at := none }

/-- Witness for C8 at a one-document store holding a draft document. -/
theorem c8_review_sign_state_guards_witness :
    ((draftDoc.status = "draft" ∨ draftDoc.status = "signed") →
      (reviewDocument [draftDoc] 2 "approve" 7 RoleOperations).2 ≠ none
      ∧ ((RoleOperations = RoleOperations ∨ RoleOperations = RoleManagement ∨
            RoleOperations = RoleAdmin) →
          reviewDocument [draftDoc] 2 "approve" 7 RoleOperations
            = ([draftDoc], some "invalid status")))
    ∧ ((draftDoc.status = "draft" ∨ draftDoc.status = "under_review") →
      (signDocument [draftDoc] 2 7 RoleOperations 9).2 ≠ none
      ∧ ((RoleOperations = RoleManagement ∨ RoleOperations = RoleAdmin) →
          signDocument [draftDoc] 2 7 RoleOperations 9
            = ([draftDoc], some "invalid status"))) :=
  c8_review_sign_state_guards [draftDoc] 2 "approve" 7 RoleOperations 9 draftDoc
    (by decide)

/-- The `signed_at` ↔ `signed` coupling, rowwise over the store. -/
def signedInvariant (docs : List Document) : Prop :=
  ∀ d ∈ docs, d.signed_at.isSome = (d.status == "signed")

/-- A document supplied by the client with `status := "signed"` but no
`signed_at` — `CreateDocument` keeps a non-blank caller status. -/
def signedCreateDoc : Document :=
  { id := 0, deal_id := 1, doc_type := "other", file_path := "f.pdf",
    status := "signed", signed_at := none }

/-- Counterexample to C9 as stated: `CreateDocument` defaults the status
to `draft` only when the supplied status is blank; a caller-supplied
`"signed"` status is kept and inserted with a null `signed_at`, so a
document violating the invariant is created. -/
theorem c9_counterexample :
    (createDocument [] [{ id := 1, lead_id := 1, owner_id := 42 }] [] true
        none none signedCreateDoc 42 RoleAdmin).2 = .ok 1
    ∧ (createDocument [] [{ id := 1, lead_id := 1, owner_id := 42 }] [] true
        none none signedCreateDoc 42 RoleAdmin).1
        = [{ signedCreateDoc with id := 1 }]
    ∧ ({ signedCreateDoc with id := 1 } : Document).status = "signed"
    ∧ ({ signedCreateDoc with id := 1 } : Document).signed_at = none := by
  refine ⟨by rfl, by decide, rfl, rfl⟩

lemma docGetByID_unique (docs : List Document) (id : Nat) (doc w : Document)
    (hnodup : (docs.map (fun d => d.id)).Nodup)
    (hdoc : docGetByID docs id = some doc) (hw : w ∈ docs) (hwid : w.id = id) :
    w = doc := by
  induction docs with
  | nil => cases hw
  | cons a t ih =>
    simp only [List.map_cons, List.nodup_cons] at hnodup
    unfold docGetByID at hdoc ih
    cases hpa : (a.id == id) with
    | true =>
      rw [List.find?_cons, hpa] at hdoc
      have hda : a = doc := Option.some.inj hdoc
      rcases List.mem_cons.mp hw with heq | hwt
      · rw [heq, hda]
      · exfalso
        have haid : a.id = id := by simpa using hpa
        exact hnodup.1 (by rw [haid, ← hwid]; exact List.mem_map.mpr ⟨w, hwt, rfl⟩)
    | false =>
      rw [List.find?_cons, hpa] at hdoc
      rcases List.mem_cons.mp hw with heq | hwt
      · exfalso
        have hne : ¬ a.id = id := by simpa using hpa
        exact hne (heq ▸ hwid)
      · exact ih hnodup.2 hdoc hwt

lemma signedInvariant_docUpdate (docs : List Document) (doc : Document)
    (hinv : signedInvariant docs)
    (hdoc : doc.signed_at.isSome = (doc.status == "signed")) :
    signedInvariant (docUpdate docs doc) := by
  intro d hd
  simp only [docUpdate, List.mem_map] at hd
  obtain ⟨w, hw, rfl⟩ := hd
  split
  · exact hdoc
  · exact hinv w hw

lemma signedInvariant_docUpdateStatus (docs : List Document) (id : Nat)
    (status : String) (doc : Document)
    (hnodup : (docs.map (fun d => d.id)).Nodup)
    (hfound : docGetByID docs id = some doc)
    (hinv : signedInvariant docs)
    (hold : doc.signed_at.isSome = false)
    (hnew : (status == "signed") = false) :
    signedInvariant (docUpdateStatus docs id status) := by
  intro d hd
  simp only [docUpdateStatus, List.mem_map] at hd
  obtain ⟨w, hw, rfl⟩ := hd
  split
  · next hb =>
    have hwd : w = doc :=
      docGetByID_unique docs id doc w hnodup hfound hw (by simpa using hb)
    subst hwd
    simpa [hnew] using hold
  · exact hinv w hw

/-- **C9** (amended): `Submit`, `Review`, `Sign` and `SignBySMS` all
preserve the invariant "`signed_at` is non-null iff status is `signed`"
(the two status-only transitions move between non-signed states and both
sign paths set `signed_at` together with the status), and `CreateDocument`
establishes it when the supplied document has a blank status (defaulted
to `draft`) and a null `signed_at`; a caller-supplied non-blank status can
instead violate it (see the counterexample). -/
theorem c9_signed_at_invariant :
    (∀ (docs : List Document) (deals : List Deal) (leads : List Lead)
        (pc : Bool) (gc gi : Option String) (doc : Document) (uid rid : Nat),
      trimSpace doc.status = "" → doc.signed_at = none → signedInvariant docs →
      signedInvariant (createDocument docs deals leads pc gc gi doc uid rid).1)
    ∧ (∀ (docs : List Document) (deals : List Deal) (id uid rid : Nat),
      (docs.map (fun d => d.id)).Nodup → signedInvariant docs →
      signedInvariant (submitDocument docs deals id uid rid).1)
    ∧ (∀ (docs : List Document) (id : Nat) (action : String) (uid rid : Nat),
      (docs.map (fun d => d.id)).Nodup → signedInvariant docs →
      signedInvariant (reviewDocument docs id action uid rid).1)
    ∧ (∀ (docs : List Document) (id uid rid now : Nat),
      signedInvariant docs → signedInvariant (signDocument docs id uid rid now).1)
    ∧ (∀ (docs : List Document) (docID now : Nat),
      signedInvariant docs → signedInvariant (signBySMS docs docID now).1) := by
  refine ⟨?_, ?_, ?_, ?_, ?_⟩
  · intro docs deals leads pc gc gi doc uid rid hblank hsigned hinv
    unfold createDocument docCreate
    dsimp only
    repeat' split
    all_goals try exact hinv
    all_goals
      first
      | (exfalso; simp_all; done)
      | (intro d hd
         rcases List.mem_append.mp hd with hmem | hmem
         · exact hinv d hmem
         · rw [List.mem_singleton.mp hmem]
           dsimp only
           rw [hsigned]
           decide)
  · intro docs deals id uid rid hnodup hinv
    unfold submitDocument
    split
    · exact hinv
    · rcases hget : docGetByID docs id with _ | doc
      · exact hinv
      · dsimp only
        rcases hdeal : dealGetByID deals doc.deal_id with _ | deal
        · exact hinv
        · dsimp only
          split
          · exact hinv
          · split
            · exact hinv
            · next hne =>
              have hdraft : doc.status = "draft" := by simpa using hne
              have hmem := List.mem_of_find?_eq_some hget
              have hold : doc.signed_at.isSome = false := by
                rw [hinv doc hmem, hdraft]; decide
              exact signedInvariant_docUpdateStatus docs id "under_review" doc
                hnodup hget hinv hold (by decide)
  · intro docs id action uid rid hnodup hinv
    unfold reviewDocument
    split
    · exact hinv
    · rcases hget : docGetByID docs id with _ | doc
      · exact hinv
      · dsimp only
        split
        · exact hinv
        · next hne =>
          have hur : doc.status = "under_review" := by simpa using hne
          have hmem := List.mem_of_find?_eq_some hget
          have hold : doc.signed_at.isSome = false := by
            rw [hinv doc hmem, hur]; decide
          split
          · exact signedInvariant_docUpdateStatus docs id "approved" doc
              hnodup hget hinv hold (by decide)
          · split
            · exact signedInvariant_docUpdateStatus docs id "returned" doc
                hnodup hget hinv hold (by decide)
            · exact hinv
  · intro docs id uid rid now hinv
    unfold signDocument
    split
    · exact hinv
    · rcases hget : docGetByID docs id with _ | doc
      · exact hinv
      · dsimp only
        split
        · exact hinv
        · exact signedInvariant_docUpdate docs _ hinv (by simp)
  · intro docs docID now hinv
    unfold signBySMS
    rcases hget : docGetByID docs docID with _ | doc
    · exact hinv
    · dsimp only
      split
      · exact hinv
      · exact signedInvariant_docUpdate docs _ hinv (by simp)

/-- Witness for C9: the five preservation statements applied to concrete
stores. -/
theorem c9_signed_at_invariant_witness :
    signedInvariant
      (createDocument [] [{ id := 1, lead_id := 1, owner_id := 42 }] []
        true none none
        { id := 0, deal_id := 1, doc_type := "other", file_path := "f.pdf",
          status := "", signed_at := none } 42 RoleAdmin).1
    ∧ signedInvariant (submitDocument [draftDoc]
        [{ id := 1, lead_id := 1, owner_id := 42 }] 2 42 RoleAdmin).1
    ∧ signedInvariant (reviewDocument [reviewDoc] 1 "approve" 7 RoleOperations).1
    ∧ signedInvariant (signDocument [reviewDoc] 1 7 RoleManagement 9).1
    ∧ signedInvariant (signBySMS [reviewDoc] 1 9).1 :=
  ⟨(c9_signed_at_invariant.1 [] [{ id := 1, lead_id := 1, owner_id := 42 }] []
      true none none
      { id := 0, deal_id := 1, doc_type := "other", file_path := "f.pdf",
        status := "", signed_at := none } 42 RoleAdmin rfl rfl (by intro d hd; cases hd)),
   (c9_signed_at_invariant.2.1 [draftDoc] [{ id := 1, lead_id := 1, owner_id := 42 }]
      2 42 RoleAdmin (by decide)
      (by intro d hd; rw [List.mem_singleton.mp hd]; decide)),
   (c9_signed_at_invariant.2.2.1 [reviewDoc] 1 "approve" 7 RoleOperations
      (by decide) (by intro d hd; rw [List.mem_singleton.mp hd]; decide)),
   (c9_signed_at_invariant.2.2.2.1 [reviewDoc] 1 7 RoleManagement 9
      (by intro d hd; rw [List.mem_singleton.mp hd]; decide)),
   (c9_signed_at_invariant.2.2.2.2 [reviewDoc] 1 9
      (by intro d hd; rw [List.mem_singleton.mp hd]; decide))⟩

lemma signBySMS_error_store (docs : List Document) (docID now : Nat)
    (e : String) (h : (signBySMS docs docID now).2 = some e) :
    (signBySMS docs docID now).1 = docs := by
  unfold signBySMS at h ⊢
  rcases hget : docGetByID docs docID with _ | doc
  · rfl
  · rw [hget] at h
    dsimp only at h ⊢
    by_cases hc : (!(doc.status == "approved" || doc.status == "returned" ||
        doc.status == "under_review")) = true
    · rw [if_pos hc]
    · rw [if_neg hc] at h
      simp at h

lemma smsGetByDocumentIDAndCode_update (sms : List SMSConfirmation)
    (docID : Nat) (code : String) (r r' : SMSConfirmation)
    (hnodup : (sms.map (fun w => w.id)).Nodup)
    (hfind : smsGetByDocumentIDAndCode sms docID code = some r)
    (hid : r'.id = r.id) (hdoc : r'.document_id = r.document_id)
    (hcode : r'.sms_code = r.sms_code) :
    smsGetByDocumentIDAndCode (smsUpdate sms r') docID code = some r' := by
  induction sms with
  | nil => cases hfind
  | cons a t ih =>
    simp only [List.map_cons, List.nodup_cons] at hnodup
    unfold smsGetByDocumentIDAndCode at hfind
    unfold smsGetByDocumentIDAndCode smsUpdate at ih ⊢
    rw [List.find?_cons] at hfind
    cases hpa : (a.document_id == docID && a.sms_code == code) with
    | true =>
      rw [hpa] at hfind
      have har : a = r := Option.some.inj hfind
      have hhead : (if a.id == r'.id then r' else a) = r' := by
        rw [if_pos (by simp [har, hid])]
      simp only [List.map_cons, hhead]
      rw [List.find?_cons_of_pos]
      subst har
      simp only [hdoc, hcode]
      simpa using hpa
    | false =>
      rw [hpa] at hfind
      have hmem := List.mem_of_find?_eq_some hfind
      have hne : a.id ≠ r.id := by
        intro he
        exact hnodup.1 (he ▸ List.mem_map.mpr ⟨r, hmem, rfl⟩)
      have hhead : (if a.id == r'.id then r' else a) = a := by
        rw [if_neg (by simp [hid, hne])]
      simp only [List.map_cons, hhead]
      rw [List.find?_cons_of_neg]
      · exact ih hnodup.2 hfind
      · simp only [hpa]
        exact fun hcon => by cases hcon

/-- **C10**: relaxed-policy `ConfirmCode` is not atomic with the sign
transition.  With a live matching record and a failing `SignBySMS` (the
document missing or its status outside under_review/approved/returned),
the call persists `confirmed=true` on the record, leaves the document
store unchanged, and returns the sign error; afterwards the same code
can never match again — every later confirm with it soft-fails. -/
theorem c10_confirm_not_atomic_with_sign
    (sms : List SMSConfirmation) (docs : List Document) (docID : Nat)
    (code : String) (now : Nat) (r : SMSConfirmation) (e : String)
    (hnodup : (sms.map (fun w => w.id)).Nodup)
    (hfind : smsGetByDocumentIDAndCode sms docID code = some r)
    (hconf : r.confirmed = false)
    (hexp : isCodeExpired now r.sent_at = false)
    (hsign : (signBySMS docs docID now).2 = some e) :
    confirmCode sms docs docID code now
      = (smsUpdate sms { r with confirmed := true, confirmed_at := now }, docs,
         .signFailed e)
    ∧ (∀ (t2 : Nat) (docs2 : List Document),
        confirmCode (confirmCode sms docs docID code now).1 docs2 docID code t2
          = ((confirmCode sms docs docID code now).1, docs2, .noMatch)) := by
  have hfirst :
      confirmCode sms docs docID code now
        = (smsUpdate sms { r with confirmed := true, confirmed_at := now }, docs,
           .signFailed e) := by
    unfold confirmCode
    rw [hfind]
    dsimp only
    rw [if_neg (by simp [hconf, hexp])]
    rcases hs : signBySMS docs docID now with ⟨docs', oe⟩
    have hdocs' : docs' = docs := by
      have := signBySMS_error_store docs docID now e hsign
      rw [hs] at this
      exact this
    rcases oe with _ | e'
    · rw [hs] at hsign
      simp at hsign
    · have he' : e' = e := by
        rw [hs] at hsign
        simpa using hsign
      rw [he', hdocs']
  have hfind2 :
      smsGetByDocumentIDAndCode
          (smsUpdate sms { r with confirmed := true, confirmed_at := now })
          docID code
        = some { r with confirmed := true, confirmed_at := now } :=
    smsGetByDocumentIDAndCode_update sms docID code r _ hnodup hfind rfl rfl rfl
  refine ⟨hfirst, ?_⟩
  intro t2 docs2
  rw [hfirst]
  dsimp only
  unfold confirmCode
  rw [hfind2]
  dsimp only
  rw [if_pos (by simp)]

/-- A live relaxed-policy confirmation record for document 5. -/
def liveConfirmation : SMSConfirmation :=
  { id := 1, document_id := 5, phone := "7777", sms_code := "9999",
    sent_at := 0, confirmed := false, confirmed_at := 0 }

/-- Witness for C10: the record matches but the document store is empty,
so `SignBySMS` fails with `not found`. -/
theorem c10_confirm_not_atomic_with_sign_witness :
    confirmCode [liveConfirmation] [] 5 "9999" 1
      = (smsUpdate [liveConfirmation]
          { liveConfirmation with confirmed := true, confirmed_at := 1 }, [],
         .signFailed "not found")
    ∧ (∀ (t2 : Nat) (docs2 : List Document),
        confirmCode (confirmCode [liveConfirmation] [] 5 "9999" 1).1 docs2 5 "9999" t2
          = ((confirmCode [liveConfirmation] [] 5 "9999" 1).1, docs2, .noMatch)) :=
  c10_confirm_not_atomic_with_sign [liveConfirmation] [] 5 "9999" 1
    liveConfirmation "not found" (by decide) (by decide) rfl (by decide) (by decide)

end KUB
